import Mathlib

/-!
Shallow embedding of `src/script.ts` (hvbr1s/rpc-endpoint-tester), an adaptive
probe suite for Ethereum JSON-RPC endpoints.

Modelling conventions:
* A JSON-RPC call made through `makeRequest` either rejects (transport failure,
  timeout, or unparseable body) or resolves with a response envelope.  We model
  a call's outcome as `Except String (RpcResp α)`: `.error` is a rejected
  promise, `.ok` a resolved envelope carrying optional `result` and `error`
  fields.  Each probe is parameterised by the outcomes of the calls it makes.
* JavaScript `BigInt(string)` is modelled by `jsBigInt` on the literal shapes
  the script feeds it (hex literals, decimal literals, the empty string);
  a JS exception becomes `none`.  Binary and octal literal prefixes, and
  surrounding whitespace, never occur in the script's inputs and are omitted.
* `Number(bigint) / 1e9` and `/ 1e18` divisions are modelled over `ℚ`.  All
  concrete values appearing in witnesses are far below 2^53, where the JS
  double arithmetic performed by the script is exact, so `ℚ` is faithful there.
* JS truthiness of a string result (`!response.result`) is: falsy when the
  field is absent or the empty string.
-/

namespace RpcTester

/-- A JSON scalar as it can appear in fee-history arrays: the script's
`(string | number)[]` element type.  JS numbers arriving in those arrays are
integral wei amounts, modelled as `Nat`. -/
inductive JsonValue where
  | str (s : String)
  | num (n : Nat)
deriving DecidableEq

/-- The `error` object of a JSON-RPC response envelope (`code`, `message`;
the optional `data` field is never read by the script). -/
structure RpcError where
  code : Int
  message : String
deriving DecidableEq

/-- The resolved value of `makeRequest`: the parsed JSON-RPC envelope plus
timing metadata (the `httpVersion`, `statusCode` and `headers` fields are
only logged and are irrelevant to every claim, so they are elided). -/
structure RpcResp (α : Type) where
  result : Option α
  error : Option RpcError
  responseTime : Nat
deriving DecidableEq

/-- JS string `includes`: case-sensitive substring containment, rendered as
infix-of on the character lists. -/
def strIncludes (s pat : String) : Bool := decide (pat.toList <:+: s.toList)

/-- Numeric value of one hexadecimal digit character, `none` otherwise. -/
def hexDigitVal (c : Char) : Option Nat :=
  if '0' ≤ c ∧ c ≤ '9' then some (c.toNat - '0'.toNat)
  else if 'a' ≤ c ∧ c ≤ 'f' then some (c.toNat - 'a'.toNat + 10)
  else if 'A' ≤ c ∧ c ≤ 'F' then some (c.toNat - 'A'.toNat + 10)
  else none

/-- Numeric value of one decimal digit character, `none` otherwise. -/
def decDigitVal (c : Char) : Option Nat :=
  if '0' ≤ c ∧ c ≤ '9' then some (c.toNat - '0'.toNat) else none

/-- Accumulating loop over hex digit characters: folds the remaining digits
onto `acc`, `none` on any non-hex character; the exhausted list yields the
accumulator (callers guard non-emptiness). -/
def hexDigitsVal : List Char → Nat → Option Nat
  | [], acc => some acc
  | c :: cs, acc =>
    match hexDigitVal c with
    | some d => hexDigitsVal cs (acc * 16 + d)
    | none => none

/-- Value of the digit run after a `0x` prefix: the JS grammar requires at
least one hex digit, so the empty run is a `SyntaxError` (`none`). -/
def hexLiteralVal : List Char → Option Nat
  | [] => none
  | c :: cs => hexDigitsVal (c :: cs) 0

/-- Accumulating loop over decimal digit characters: folds the remaining
digits onto `acc`, `none` on any non-digit character; the exhausted list
yields the accumulator (callers only pass non-empty lists). -/
def decDigitsVal : List Char → Nat → Option Nat
  | [], acc => some acc
  | c :: cs, acc =>
    match decDigitVal c with
    | some d => decDigitsVal cs (acc * 10 + d)
    | none => none

/-- Model of the JavaScript `BigInt(string)` constructor on the literal shapes
the script can produce: `0x`/`0X`-prefixed hex literals, optionally signed
decimal literals, and the empty string (which JS evaluates to `0n`).  A
`SyntaxError` (thrown on any other shape, including a bare `0x` with no
digits or a signed hex literal) is modelled as `none`. -/
def jsBigInt (s : String) : Option Int :=
  match s.toList with
  | [] => some 0
  | '0' :: 'x' :: rest => (hexLiteralVal rest).map Int.ofNat
  | '0' :: 'X' :: rest => (hexLiteralVal rest).map Int.ofNat
  | '-' :: rest =>
    match rest with
    | [] => none
    | _ => (decDigitsVal rest 0).map (fun n => -(n : Int))
  | '+' :: rest =>
    match rest with
    | [] => none
    | _ => (decDigitsVal rest 0).map Int.ofNat
  | cs => (decDigitsVal cs 0).map Int.ofNat

/-- Rendering of JS `n.toString(16)` for a non-negative integral number `n`:
lowercase hexadecimal digits. -/
def jsNumToString16 (n : Nat) : String := String.mk (Nat.toDigits 16 n)

/-- Consume leading hex digits, stopping at the first non-digit
(the digit-accumulation loop inside JS `parseInt`). -/
def parseHexLoop : List Char → Nat → Nat
  | [], acc => acc
  | c :: cs, acc =>
    match hexDigitVal c with
    | some d => parseHexLoop cs (acc * 16 + d)
    | none => acc

/-- Model of JS `parseInt(s, 16)`: strips an optional `0x`/`0X` prefix, then
reads the longest leading run of hex digits, ignoring any trailing junk;
`NaN` (no digits at all) is `none`.  Sign and leading-whitespace handling are
omitted: the script only feeds it RPC hex-quantity strings. -/
def jsParseIntHex (s : String) : Option Nat :=
  let cs := s.toList
  let cs := if cs.take 2 = ['0', 'x'] ∨ cs.take 2 = ['0', 'X'] then cs.drop 2 else cs
  match cs with
  | [] => none
  | c :: rest =>
    match hexDigitVal c with
    | none => none
    | some d => some (parseHexLoop rest d)

/-- The static chain-id → network-name table of `testChainId`
(`src/script.ts` lines 177–199). -/
def chainNames : List (Nat × String) :=
  [(1, "Ethereum Mainnet"), (5, "Goerli Testnet"), (11155111, "Sepolia Testnet"),
   (137, "Polygon Mainnet"), (80001, "Polygon Mumbai"), (56, "BSC Mainnet"),
   (97, "BSC Testnet"), (43114, "Avalanche C-Chain"), (43113, "Avalanche Fuji"),
   (42161, "Arbitrum One"), (421613, "Arbitrum Goerli"), (10, "Optimism"),
   (420, "Optimism Goerli"), (8453, "Base Mainnet"), (84531, "Base Goerli"),
   (1329, "SEI Mainnet"), (16661, "0G-Aristotle"), (9600, "RouterChain"),
   (23294, "Oasis Sapphire"), (239, "TAC Mainnet"), (42793, "Etherlink")]

/-- Observables of one run of `testChainId`: the returned boolean, the parsed
chain id stored in `this.results.chainId` (`none` models `NaN` or "probe never
got that far"), the network-name lookup (`none` is rendered "Unknown chain"),
and whether the chain-id-mismatch warning was printed. -/
structure ChainIdOutcome where
  passed : Bool
  chainId : Option Nat
  chainName : Option String
  warned : Bool
deriving DecidableEq

/-- `testChainId` (`src/script.ts` lines 160–213).  `resp` is the outcome of
the single `eth_chainId` call; `expectedChainId` is the constructor argument
(`null` modelled as `none`).  A rejected call, an `error` field, or a falsy
`result` (absent or empty string) lands in the catch / throw paths and
returns `false`; otherwise the probe always returns `true` — the name lookup
and the expected-id comparison only print. -/
def testChainId (resp : Except String (RpcResp String)) (expectedChainId : Option Int) :
    ChainIdOutcome :=
  match resp with
  | .error _ => ⟨false, none, none, false⟩
  | .ok response =>
    match response.error with
    | some _ => ⟨false, none, none, false⟩
    | none =>
      match response.result with
      | none => ⟨false, none, none, false⟩
      | some s =>
        if s = "" then ⟨false, none, none, false⟩
        else
          let chainId := jsParseIntHex s
          let name := chainId.bind fun c => (chainNames.find? fun p => p.1 == c).map Prod.snd
          let warned :=
            match expectedChainId with
            | none => false
            | some e =>
              if e = 0 then false
              else
                match chainId with
                | none => true
                | some c => decide ((c : Int) ≠ e)
          ⟨true, chainId, name, warned⟩

/-- The zero address, first element of `testAddresses` in `testGetBalance`. -/
def zeroAddress : String := "0x0000000000000000000000000000000000000000"

/-- The address list `testGetBalance` iterates over: the zero address and then
`TEST_ADDRESS` (the `FORDEFI_EVM_VAULT_ADDRESS` environment variable with the
empty string as default when unset).  The list is built unconditionally:
no filtering of the unset / empty case happens. -/
def testAddresses (TEST_ADDRESS : String) : List String := [zeroAddress, TEST_ADDRESS]

/-- The JSON-RPC request `testGetBalance` issues for one address:
`makeRequest('eth_getBalance', [address, 'latest'])`. -/
structure BalanceRequest where
  method : String
  params : List String
deriving DecidableEq

/-- Request construction of `src/script.ts` line 291. -/
def balanceRequest (address : String) : BalanceRequest :=
  ⟨"eth_getBalance", [address, "latest"]⟩

/-- Whether one iteration of the `testGetBalance` loop completes without
throwing: the call resolved, carried no `error`, carried a truthy `result`,
and `BigInt(response.result)` parsed. -/
def balanceQueryOk (resp : Except String (RpcResp String)) : Bool :=
  match resp with
  | .error _ => false
  | .ok r =>
    match r.error with
    | some _ => false
    | none =>
      match r.result with
      | none => false
      | some s => if s = "" then false else (jsBigInt s).isSome

/-- The `for (const address of testAddresses)` loop of `testGetBalance`:
returns the requests actually issued (the first failing address throws out of
the loop, so later addresses are never queried) and the probe's boolean.
`oracle` gives the outcome of the `eth_getBalance` call for each address. -/
def runBalanceQueries (oracle : String → Except String (RpcResp String)) :
    List String → List BalanceRequest × Bool
  | [] => ([], true)
  | address :: rest =>
    if balanceQueryOk (oracle address) then
      let r := runBalanceQueries oracle rest
      (balanceRequest address :: r.1, r.2)
    else ([balanceRequest address], false)

/-- The requests `testGetBalance` issues for a given `TEST_ADDRESS`. -/
def balanceQueriesIssued (TEST_ADDRESS : String)
    (oracle : String → Except String (RpcResp String)) : List BalanceRequest :=
  (runBalanceQueries oracle (testAddresses TEST_ADDRESS)).1

/-- `testGetBalance` (`src/script.ts` lines 281–314): its returned boolean. -/
def testGetBalance (TEST_ADDRESS : String)
    (oracle : String → Except String (RpcResp String)) : Bool :=
  (runBalanceQueries oracle (testAddresses TEST_ADDRESS)).2

/-- The liveness check of `testBlockNumber` (`src/script.ts` lines 264–268):
`blockNumbers.some((block, i) => i > 0 && block > blockNumbers[i-1])`,
rendered over indices (`block` is `blockNumbers[i]`). -/
def isIncrementing (blockNumbers : List Nat) : Bool :=
  (List.range blockNumbers.length).any fun i =>
    decide (0 < i) && decide (blockNumbers.getD (i - 1) 0 < blockNumbers.getD i 0)

/-- The parsed `eth_feeHistory` result (interface `FeeHistoryResult`):
`baseFeePerGas` and `reward` are optional and their elements may mix hex
strings with native numbers; `gasUsedRatio` and `oldestBlock` are carried but
never read by the probe. -/
structure FeeHistoryResult where
  baseFeePerGas : Option (List JsonValue)
  gasUsedRatio : List ℚ
  oldestBlock : String
  reward : Option (List (List JsonValue))
deriving DecidableEq

/-- Which parameter encoding of the block count succeeded
(`parameterFormat : 'hex' ǀ 'number' ǀ null` in the script). -/
inductive ParamFormat where
  | hex
  | number
deriving DecidableEq

/-- Observables of one run of `testFeeHistory`: the returned boolean, the
value left in `this.results.eip1559` (`none` when never assigned), the final
`parameterFormat` local, and whether the Stage-2 (numeric block count) request
was issued at all. -/
structure FeeHistoryOutcome where
  passed : Bool
  eip1559 : Option Bool
  parameterFormat : Option ParamFormat
  stage2Attempted : Bool
deriving DecidableEq

/-- The Stage-1-error fallback test of `src/script.ts` lines 334–336: does the
hex-attempt error message contain one of the six type-mismatch/parse-failure
markers? -/
def needsFallback (hexError : String) : Bool :=
  strIncludes hexError "unmarshal" || strIncludes hexError "destruct" ||
  strIncludes hexError "parse" || strIncludes hexError "invalid" ||
  strIncludes hexError "type" || strIncludes hexError "expected"

/-- The unsupported-feature test of `src/script.ts` lines 353–354. -/
def isUnsupportedError (message : String) : Bool :=
  strIncludes message "not found" || strIncludes message "not supported"

/-- The per-element normalization `typeof fee === 'number' ?
BigInt(hex-string-of(fee)) : BigInt(fee)` used for base fees and rewards
(lines 375, 395, 406–408); `none` models a thrown conversion error. -/
def normalizeFeeValue : JsonValue → Option Int
  | .num n => jsBigInt ("0x" ++ jsNumToString16 n)
  | .str s => jsBigInt s

/-- Normalization of an indexed reward access `latestRewards[k]`: an
out-of-range access yields JS `undefined`, which is not a number, so it is
passed to `BigInt` unchanged and the conversion throws (`none`). -/
def normalizeRewardEntry (v : Option JsonValue) : Option Int :=
  v.bind normalizeFeeValue

/-- One summand of the average-base-fee reduce (line 396):
`Number(BigInt(feeValue)) / 1e9`, exact over `ℚ` for the magnitudes the
script handles. -/
def feeToGwei (v : JsonValue) : Option ℚ :=
  (normalizeFeeValue v).map fun x : Int => (x : ℚ) / 1000000000

/-- The summation inside the `reduce` of lines 394–397; `none` models a
conversion throw at any element (which aborts the whole probe body). -/
def sumFeeGwei : List JsonValue → Option ℚ
  | [] => some 0
  | v :: rest => do
    let x ← feeToGwei v
    let s ← sumFeeGwei rest
    pure (x + s)

/-- The average base fee in gwei (lines 394–397): the reduce sum divided by
the array length. -/
def avgBaseFeeGwei (fees : List JsonValue) : Option ℚ :=
  (sumFeeGwei fees).map fun s => s / (fees.length : ℚ)

/-- The body of `testFeeHistory` after the error handling resolved to a
non-error `response` (lines 365–420): result check, `eip1559` assignment,
base-fee conversions, reward-percentile conversions.  `fmt` and `s2` thread
through the `parameterFormat` local and the stage-2-attempted observable.
Any `none` from a conversion is a thrown error, caught by the probe's `catch`:
the probe returns `false` with `results.eip1559` left at its last assignment. -/
def parseFeeSuccess (r : RpcResp FeeHistoryResult) (fmt : Option ParamFormat) (s2 : Bool) :
    FeeHistoryOutcome :=
  match r.result with
  | none => ⟨false, none, fmt, s2⟩
  | some feeHistory =>
    match feeHistory.baseFeePerGas with
    | some fees =>
      if 0 < fees.length then
        match normalizeFeeValue (fees.getD (fees.length - 1) (.num 0)) with
        | none => ⟨false, some true, fmt, s2⟩
        | some _ =>
          match avgBaseFeeGwei fees with
          | none => ⟨false, some true, fmt, s2⟩
          | some _ =>
            match feeHistory.reward with
            | some rws =>
              if 0 < rws.length then
                if 0 < (rws.getD (rws.length - 1) []).length then
                  match normalizeRewardEntry (rws.getD (rws.length - 1) [])[0]?,
                        normalizeRewardEntry (rws.getD (rws.length - 1) [])[1]?,
                        normalizeRewardEntry (rws.getD (rws.length - 1) [])[2]? with
                  | some _, some _, some _ => ⟨true, some true, fmt, s2⟩
                  | _, _, _ => ⟨false, some true, fmt, s2⟩
                else ⟨true, some true, fmt, s2⟩
              else ⟨true, some true, fmt, s2⟩
            | none => ⟨true, some true, fmt, s2⟩
      else ⟨true, some false, fmt, s2⟩
    | none => ⟨true, some false, fmt, s2⟩

/-- `testFeeHistory` (`src/script.ts` lines 316–426).  `stage1` is the
outcome of the hex-block-count call `eth_feeHistory ['0xa', 'latest',
[25,50,75]]`; `stage2` the outcome the transport would give the numeric
retry `eth_feeHistory [10, 'latest', [25,50,75]]` (consumed only when the
fallback fires).  A rejected promise at either stage is caught by the
probe's `catch` and returns `false`. -/
def testFeeHistory (stage1 stage2 : Except String (RpcResp FeeHistoryResult)) :
    FeeHistoryOutcome :=
  match stage1 with
  | .error _ => ⟨false, none, none, false⟩
  | .ok r1 =>
    match r1.error with
    | some e1 =>
      if needsFallback e1.message then
        match stage2 with
        | .error _ => ⟨false, none, none, true⟩
        | .ok r2 =>
          match r2.error with
          | some e2 =>
            if isUnsupportedError e2.message then ⟨true, some false, none, true⟩
            else ⟨false, none, none, true⟩
          | none => parseFeeSuccess r2 (some .number) true
      else
        if isUnsupportedError e1.message then ⟨true, some false, none, false⟩
        else ⟨false, none, none, false⟩
    | none => parseFeeSuccess r1 (some .hex) false

/-- The accumulating `results` record of `runAllTests`: pass/fail counters
and the per-test outcome map (an insertion-ordered record in JS, modelled as
the list of insertions). -/
structure TestResult where
  passed : Nat
  failed : Nat
  tests : List (String × Bool)
deriving DecidableEq

/-- The fixed probe order of the `tests` array (lines 468–474). -/
def testNames : List String :=
  ["eth_chainId", "eth_blockNumber", "eth_getBalance", "eth_feeHistory", "eth_gasPrice"]

/-- One iteration of the `for (const test of tests)` loop (lines 482–496):
a resolved `true` increments `passed`; a resolved `false` or a thrown error
(the `catch` branch) increments `failed`; either way the outcome is recorded
under the test's name and the loop continues. -/
def recordTest (results : TestResult) (name : String) (outcome : Except String Bool) :
    TestResult :=
  match outcome with
  | .ok true => ⟨results.passed + 1, results.failed, results.tests ++ [(name, true)]⟩
  | .ok false => ⟨results.passed, results.failed + 1, results.tests ++ [(name, false)]⟩
  | .error _ => ⟨results.passed, results.failed + 1, results.tests ++ [(name, false)]⟩

/-- `runAllTests` (lines 456–525): fold the five probes in order over the
empty result record.  `behaviors` gives each probe's outcome: `.ok b` a
returned boolean, `.error msg` a thrown exception. -/
def runAllTests (behaviors : String → Except String Bool) : TestResult :=
  testNames.foldl (fun res name => recordTest res name (behaviors name)) ⟨0, 0, []⟩

/-- The recorded boolean for one probe outcome: what `runAllTests` stores in
`results.tests` (a crash is recorded as `false`). -/
def outcomePassed : Except String Bool → Bool
  | .ok b => b
  | .error _ => false

/-- The exit-code decision of `main` (line 558):
`process.exit(results.failed > 0 ? 1 : 0)`. -/
def mainExitCode (results : TestResult) : Nat :=
  if 0 < results.failed then 1 else 0

/-- The condition under which the reward-percentile block of
`parseFeeSuccess` (lines 402–413) completes without a conversion throw:
either there is no reward data to inspect, or the latest block's reward list
is empty, or its first three accesses all convert. -/
def rewardParseOk (reward : Option (List (List JsonValue))) : Bool :=
  match reward with
  | none => true
  | some rws =>
    if 0 < rws.length then
      if 0 < (rws.getD (rws.length - 1) []).length then
        (normalizeRewardEntry (rws.getD (rws.length - 1) [])[0]?).isSome &&
        (normalizeRewardEntry (rws.getD (rws.length - 1) [])[1]?).isSome &&
        (normalizeRewardEntry (rws.getD (rws.length - 1) [])[2]?).isSome
      else true
    else true

/-- The end-to-end scenario of the spec: an `eth_feeHistory` call that errors
with "method not found" (at whichever stage it is issued). -/
def feeNotFoundResp : Except String (RpcResp FeeHistoryResult) :=
  Except.ok ⟨none, some ⟨-32601, "method not found"⟩, 5⟩

/-- Probe behaviors for that scenario: the fee-history probe returns whatever
`testFeeHistory` computes on the "method not found" responses; the other four
probes pass. -/
def notFoundScenario : String → Except String Bool := fun name =>
  if name = "eth_feeHistory" then
    Except.ok (testFeeHistory feeNotFoundResp feeNotFoundResp).passed
  else Except.ok true

/-! ## General lemmas about the embedding -/

/-- Substring containment is antitone in the pattern: containing a longer
pattern implies containing any infix of it. -/
theorem strIncludes_mono (s p q : String) (hpq : p.toList <:+: q.toList)
    (h : strIncludes s q = true) : strIncludes s p = true := by
  unfold strIncludes at h ⊢
  rw [decide_eq_true_iff] at h ⊢
  exact hpq.trans h

/-- The adjacent-pair reading of `isIncrementing`: some position `i > 0`
strictly exceeds its predecessor. -/
theorem isIncrementing_iff_adjacent (bs : List Nat) :
    isIncrementing bs = true ↔
      ∃ i, 0 < i ∧ i < bs.length ∧ bs.getD (i - 1) 0 < bs.getD i 0 := by
  unfold isIncrementing
  rw [List.any_eq_true]
  constructor
  · rintro ⟨i, hmem, hp⟩
    rw [Bool.and_eq_true, decide_eq_true_iff, decide_eq_true_iff] at hp
    exact ⟨i, hp.1, List.mem_range.mp hmem, hp.2⟩
  · rintro ⟨i, h0, hl, hlt⟩
    refine ⟨i, List.mem_range.mpr hl, ?_⟩
    rw [Bool.and_eq_true, decide_eq_true_iff, decide_eq_true_iff]
    exact ⟨h0, hlt⟩

/-- If no position strictly exceeds its predecessor, the sampled values are
antitone along the sequence. -/
theorem getD_antitone_of_no_adjacent_increase (bs : List Nat)
    (h : ∀ k, 0 < k → k < bs.length → ¬ bs.getD (k - 1) 0 < bs.getD k 0) :
    ∀ i j, i ≤ j → j < bs.length → bs.getD j 0 ≤ bs.getD i 0 := by
  intro i j
  induction j with
  | zero =>
    intro hij _
    have hi : i = 0 := Nat.le_zero.mp hij
    rw [hi]
  | succ n ih =>
    intro hij hj
    rcases eq_or_lt_of_le hij with heq | hlt
    · rw [heq]
    · have h1 : ¬ bs.getD (n + 1 - 1) 0 < bs.getD (n + 1) 0 :=
        h (n + 1) (Nat.succ_pos n) hj
      rw [Nat.add_sub_cancel] at h1
      exact le_trans (Nat.le_of_not_lt h1)
        (ih (Nat.lt_succ_iff.mp hlt) (Nat.lt_of_succ_lt hj))

/-! ## Claim theorems -/

/-- C4: the liveness flag of the block-activity probe is `true` on a sample
sequence exactly when some later sample strictly exceeds some earlier one;
the implemented adjacent-pair check coincides with this any-pair
specification on every sequence (in particular on all five-element ones),
and the two quoted examples evaluate as the claim states. -/
theorem C4_liveness_any_pair :
    (∀ bs : List Nat, isIncrementing bs = true ↔
       ∃ i j, i < j ∧ j < bs.length ∧ bs.getD i 0 < bs.getD j 0)
    ∧ isIncrementing [100, 100, 101, 101, 102] = true
    ∧ isIncrementing [100, 100, 100, 100, 100] = false := by
  refine ⟨fun bs => ?_, by decide, by decide⟩
  rw [isIncrementing_iff_adjacent]
  constructor
  · rintro ⟨i, h0, hl, hlt⟩
    exact ⟨i - 1, i, Nat.sub_lt h0 one_pos, hl, hlt⟩
  · rintro ⟨i, j, hij, hj, hlt⟩
    by_contra hno
    have key : ∀ k, 0 < k → k < bs.length → ¬ bs.getD (k - 1) 0 < bs.getD k 0 :=
      fun k hk hkl hcon => hno ⟨k, hk, hkl, hcon⟩
    exact absurd hlt
      (Nat.not_lt.mpr
        (getD_antitone_of_no_adjacent_increase bs key i j (le_of_lt hij) hj))

/-- C4 witness: the any-pair characterization instantiated on the first
quoted example. -/
theorem C4_liveness_any_pair_witness :
    ∃ i j, i < j ∧ j < ([100, 100, 101, 101, 102] : List Nat).length ∧
      ([100, 100, 101, 101, 102] : List Nat).getD i 0
        < ([100, 100, 101, 101, 102] : List Nat).getD j 0 :=
  (C4_liveness_any_pair.1 [100, 100, 101, 101, 102]).mp (by decide)

/-- The chain-identity probe passes exactly when its call resolves with no
error object and a truthy (present, non-empty) result string. -/
theorem testChainId_passed_iff (resp : Except String (RpcResp String))
    (expected : Option Int) :
    (testChainId resp expected).passed = true ↔
      ∃ r s, resp = Except.ok r ∧ r.error = none ∧ r.result = some s ∧ s ≠ "" := by
  cases resp with
  | error m => simp [testChainId]
  | ok r =>
    obtain ⟨res, err, t⟩ := r
    cases err with
    | some e => simp [testChainId]
    | none =>
      cases res with
      | none => simp [testChainId]
      | some s =>
        by_cases hs : s = ""
        · subst hs
          simp [testChainId]
        · constructor
          · intro _
            exact ⟨⟨some s, none, t⟩, s, rfl, rfl, rfl, hs⟩
          · intro _
            simp [testChainId, hs]

/-- C9: the chain-identity probe passes iff the `eth_chainId` call resolved
with no error and a truthy result, independently of the caller-supplied
expected chain id (mismatch only warns) and of the static name table
(an id absent from the table — rendered "Unknown chain" — still passes). -/
theorem C9_chain_id_pass_iff :
    (∀ (resp : Except String (RpcResp String)) (expected : Option Int),
      (testChainId resp expected).passed = true ↔
        ∃ r s, resp = Except.ok r ∧ r.error = none ∧ r.result = some s ∧ s ≠ "")
    ∧ (∀ (resp : Except String (RpcResp String)) (e₁ e₂ : Option Int),
        (testChainId resp e₁).passed = (testChainId resp e₂).passed)
    ∧ (testChainId (Except.ok ⟨some "0xdeadbeef", none, 7⟩) (some 1))
        = ⟨true, some 3735928559, none, true⟩ := by
  refine ⟨testChainId_passed_iff, fun resp e₁ e₂ => ?_, by decide⟩
  rw [Bool.eq_iff_iff, testChainId_passed_iff, testChainId_passed_iff]

/-- C9 witness: the pass characterization instantiated on a concrete
successful response whose chain id is not in the static table. -/
theorem C9_chain_id_pass_iff_witness :
    (testChainId (Except.ok ⟨some "0x3039", none, 2⟩) (some 5)).passed = true :=
  (C9_chain_id_pass_iff.1 (Except.ok ⟨some "0x3039", none, 2⟩) (some 5)).mpr
    ⟨⟨some "0x3039", none, 2⟩, "0x3039", rfl, rfl, rfl, by decide⟩

/-- C3 counterexample: with no second address configured (`TEST_ADDRESS` is
the empty string) and every call succeeding, the probe still issues a second
`eth_getBalance` request for the empty-string address — the zero address is
not the only address queried, contrary to the claim. -/
theorem C3_balance_counterexample :
    balanceQueriesIssued "" (fun _ => Except.ok ⟨some "0x0", none, 1⟩)
      = [balanceRequest zeroAddress, ⟨"eth_getBalance", ["", "latest"]⟩]
    ∧ balanceQueriesIssued "" (fun _ => Except.ok ⟨some "0x0", none, 1⟩)
      ≠ [balanceRequest zeroAddress] := by
  refine ⟨by decide, by decide⟩

/-- C3 (amended): the balance probe issues `eth_getBalance (address, "latest")`
for the zero address and then always for the `TEST_ADDRESS` string — the
empty string when no second address is configured — stopping at (and failing
on) the first address whose query errors, has a falsy result, or fails the
wei conversion. -/
theorem C3_balance_queries :
    ∀ (TEST_ADDRESS : String) (oracle : String → Except String (RpcResp String)),
      (∀ a, balanceRequest a = ⟨"eth_getBalance", [a, "latest"]⟩)
      ∧ (balanceQueryOk (oracle zeroAddress) = false →
           balanceQueriesIssued TEST_ADDRESS oracle = [balanceRequest zeroAddress]
           ∧ testGetBalance TEST_ADDRESS oracle = false)
      ∧ (balanceQueryOk (oracle zeroAddress) = true →
           balanceQueriesIssued TEST_ADDRESS oracle
             = [balanceRequest zeroAddress, balanceRequest TEST_ADDRESS]
           ∧ testGetBalance TEST_ADDRESS oracle
             = balanceQueryOk (oracle TEST_ADDRESS)) := by
  intro TEST_ADDRESS oracle
  refine ⟨fun a => rfl, fun h0 => ?_, fun h0 => ?_⟩
  · constructor <;>
      simp [balanceQueriesIssued, testGetBalance, testAddresses, runBalanceQueries, h0]
  · cases h1 : balanceQueryOk (oracle TEST_ADDRESS) <;> constructor <;>
      simp [balanceQueriesIssued, testGetBalance, testAddresses, runBalanceQueries, h0, h1]

/-- C3 witness: the amended characterization instantiated on a configured
second address with all queries succeeding: both addresses are queried. -/
theorem C3_balance_queries_witness :
    balanceQueriesIssued "0xabc" (fun _ => Except.ok ⟨some "0x1", none, 1⟩)
      = [balanceRequest zeroAddress, balanceRequest "0xabc"] :=
  ((C3_balance_queries "0xabc" (fun _ => Except.ok ⟨some "0x1", none, 1⟩)).2.2
    (by decide)).1

/-- The success-parsing body leaves the `parameterFormat` and
stage-2-attempted observables exactly as handed to it. -/
theorem parseFeeSuccess_fmt_s2 (r : RpcResp FeeHistoryResult)
    (fmt : Option ParamFormat) (s2 : Bool) :
    (parseFeeSuccess r fmt s2).parameterFormat = fmt ∧
      (parseFeeSuccess r fmt s2).stage2Attempted = s2 := by
  unfold parseFeeSuccess
  repeat' split
  all_goals exact ⟨rfl, rfl⟩

/-- The `eip1559` observable of the success-parsing body depends only on the
presence and non-emptiness of `baseFeePerGas`. -/
theorem parseFeeSuccess_eip1559 (r : RpcResp FeeHistoryResult)
    (fmt : Option ParamFormat) (s2 : Bool) :
    (parseFeeSuccess r fmt s2).eip1559 =
      match r.result with
      | none => none
      | some feeHistory =>
        match feeHistory.baseFeePerGas with
        | some fees => if 0 < fees.length then some true else some false
        | none => some false := by
  unfold parseFeeSuccess
  repeat' split
  all_goals rfl

/-- If the gwei summation over a fee array succeeded, every element of the
array normalized successfully. -/
theorem normalizeFeeValue_isSome_of_sum (fees : List JsonValue)
    (h : (sumFeeGwei fees).isSome = true) :
    ∀ v ∈ fees, (normalizeFeeValue v).isSome = true := by
  induction fees with
  | nil =>
    intro v hv
    cases hv
  | cons a rest ih =>
    intro v hv
    rcases hx : feeToGwei a with _ | x
    · rw [sumFeeGwei, hx] at h
      simp at h
    · rcases hs : sumFeeGwei rest with _ | s
      · rw [sumFeeGwei, hx, hs] at h
        simp at h
      · rcases List.mem_cons.mp hv with rfl | hv2
        · rw [feeToGwei] at hx
          rcases hn : normalizeFeeValue v with _ | n
          · rw [hn] at hx
            simp at hx
          · rfl
        · exact ih (by rw [hs]; rfl) v hv2

/-- The element `fees[fees.length - 1]` accessed for the latest base fee is a
member of the array. -/
theorem getD_last_mem (l : List JsonValue) (h : 0 < l.length) (d : JsonValue) :
    l.getD (l.length - 1) d ∈ l := by
  rw [List.getD_eq_getElem?_getD, List.getElem?_eq_getElem (Nat.sub_lt h one_pos)]
  exact List.getElem_mem _

/-- C1: the Stage-2 (numeric block count) retry of the fee-history probe is
issued exactly when the Stage-1 call resolved to an envelope whose error
message satisfies the six-substring fallback test; any message containing
"invalid argument" satisfies it; and the fallback test is precisely the
disjunction of the six case-sensitive substring checks. -/
theorem C1_stage2_fallback_iff :
    (∀ stage1 stage2 : Except String (RpcResp FeeHistoryResult),
       (testFeeHistory stage1 stage2).stage2Attempted = true ↔
         ∃ r e, stage1 = Except.ok r ∧ r.error = some e ∧
           needsFallback e.message = true)
    ∧ (∀ msg, strIncludes msg "invalid argument" = true → needsFallback msg = true)
    ∧ (∀ msg, needsFallback msg = true ↔
        (strIncludes msg "unmarshal" = true ∨ strIncludes msg "destruct" = true ∨
         strIncludes msg "parse" = true ∨ strIncludes msg "invalid" = true ∨
         strIncludes msg "type" = true ∨ strIncludes msg "expected" = true)) := by
  refine ⟨fun stage1 stage2 => ?_, fun msg h => ?_, fun msg => ?_⟩
  · cases stage1 with
    | error m => simp [testFeeHistory]
    | ok r1 =>
      obtain ⟨res1, err1, t1⟩ := r1
      cases err1 with
      | none =>
        rw [show testFeeHistory (Except.ok ⟨res1, none, t1⟩) stage2
              = parseFeeSuccess ⟨res1, none, t1⟩ (some ParamFormat.hex) false from rfl,
            (parseFeeSuccess_fmt_s2 _ _ _).2]
        simp
      | some e1 =>
        by_cases hf : needsFallback e1.message = true
        · have hL : (testFeeHistory (Except.ok ⟨res1, some e1, t1⟩) stage2).stage2Attempted
              = true := by
            cases stage2 with
            | error m2 => simp [testFeeHistory, hf]
            | ok r2 =>
              obtain ⟨res2, err2, t2⟩ := r2
              cases err2 with
              | none =>
                simp only [testFeeHistory, hf, if_true]
                exact (parseFeeSuccess_fmt_s2 _ _ _).2
              | some e2 =>
                by_cases hu : isUnsupportedError e2.message = true <;>
                  simp [testFeeHistory, hf, hu]
          exact iff_of_true hL ⟨⟨res1, some e1, t1⟩, e1, rfl, rfl, hf⟩
        · by_cases hu : isUnsupportedError e1.message = true <;>
            simp [testFeeHistory, hf, hu]
  · have hinv : strIncludes msg "invalid" = true :=
      strIncludes_mono msg "invalid" "invalid argument" (by decide) h
    simp [needsFallback, hinv]
  · simp only [needsFallback, Bool.or_eq_true, or_assoc]

/-- C1 witness: a Stage-1 error message containing "invalid argument" makes
the probe issue the Stage-2 request; the fallback test holds on it. -/
theorem C1_stage2_fallback_iff_witness :
    (testFeeHistory (Except.ok ⟨none, some ⟨-32602, "invalid argument"⟩, 4⟩)
        (Except.error "connection reset")).stage2Attempted = true
    ∧ needsFallback "invalid argument" = true := by
  constructor
  · exact (C1_stage2_fallback_iff.1 _ _).mpr
      ⟨⟨none, some ⟨-32602, "invalid argument"⟩, 4⟩, ⟨-32602, "invalid argument"⟩,
        rfl, rfl, by decide⟩
  · exact C1_stage2_fallback_iff.2.1 "invalid argument" (by decide)

/-- C2: after the fallback decision, a final envelope error containing
"not found" or "not supported" classifies the endpoint as legacy
(`eip1559 = false`) and passes the probe with no further parsing; any other
final envelope error fails the probe.  Covers both the no-fallback Stage-1
error and the Stage-2 error after a fallback. -/
theorem C2_unsupported_classification :
    ∀ (r1 : RpcResp FeeHistoryResult) (e1 : RpcError)
      (stage2 : Except String (RpcResp FeeHistoryResult)),
      r1.error = some e1 →
      ((needsFallback e1.message = false → isUnsupportedError e1.message = true →
          testFeeHistory (Except.ok r1) stage2 = ⟨true, some false, none, false⟩)
       ∧ (needsFallback e1.message = false → isUnsupportedError e1.message = false →
          testFeeHistory (Except.ok r1) stage2 = ⟨false, none, none, false⟩)
       ∧ ∀ (r2 : RpcResp FeeHistoryResult) (e2 : RpcError),
           needsFallback e1.message = true → stage2 = Except.ok r2 →
           r2.error = some e2 →
           (isUnsupportedError e2.message = true →
              testFeeHistory (Except.ok r1) stage2 = ⟨true, some false, none, true⟩)
           ∧ (isUnsupportedError e2.message = false →
              testFeeHistory (Except.ok r1) stage2 = ⟨false, none, none, true⟩)) := by
  intro r1 e1 stage2 h1
  refine ⟨fun hf hu => ?_, fun hf hu => ?_, fun r2 e2 hf hs2 h2 => ?_⟩
  · simp [testFeeHistory, h1, hf, hu]
  · simp [testFeeHistory, h1, hf, hu]
  · subst hs2
    constructor <;> intro hu <;> simp [testFeeHistory, h1, h2, hf, hu]

/-- C2 witness: the classification applied to concrete "method not found"
and "execution reverted" Stage-1 errors. -/
theorem C2_unsupported_classification_witness :
    testFeeHistory (Except.ok ⟨none, some ⟨-32601, "method not found"⟩, 3⟩)
        (Except.error "unused")
      = ⟨true, some false, none, false⟩
    ∧ testFeeHistory (Except.ok ⟨none, some ⟨-32000, "execution reverted"⟩, 3⟩)
        (Except.error "unused")
      = ⟨false, none, none, false⟩ := by
  constructor
  · exact (C2_unsupported_classification ⟨none, some ⟨-32601, "method not found"⟩, 3⟩
      ⟨-32601, "method not found"⟩ (Except.error "unused") rfl).1 (by decide) (by decide)
  · exact (C2_unsupported_classification ⟨none, some ⟨-32000, "execution reverted"⟩, 3⟩
      ⟨-32000, "execution reverted"⟩ (Except.error "unused") rfl).2.1 (by decide) (by decide)

/-- C6 counterexample: a successful fee-history call (no error, result
present) with a non-empty `baseFeePerGas` whose element fails the integer
conversion: the probe classifies `eip1559 = true` but the thrown conversion
makes it return a failing outcome, so the present-and-non-empty case does not
always yield a passing outcome as the claim states. -/
theorem C6_counterexample :
    testFeeHistory
        (Except.ok ⟨some ⟨some [JsonValue.str "zz"], [], "0x1", none⟩, none, 5⟩)
        (Except.error "unused")
      = ⟨false, some true, some ParamFormat.hex, false⟩ := by decide

/-- C6 (amended): on a successful fee-history result, `eip1559` is classified
`true` iff `baseFeePerGas` is present and non-empty; when it is absent or
empty the probe passes with `eip1559 = false`; when it is present and
non-empty the probe passes provided every base-fee element converts and the
reward-percentile block does not throw. -/
theorem C6_eip1559_classification :
    ∀ (fh : FeeHistoryResult) (t : Nat)
      (stage2 : Except String (RpcResp FeeHistoryResult)),
      ((testFeeHistory (Except.ok ⟨some fh, none, t⟩) stage2).eip1559 = some true ↔
         ∃ fees, fh.baseFeePerGas = some fees ∧ 0 < fees.length)
      ∧ ((fh.baseFeePerGas = none ∨ fh.baseFeePerGas = some ([] : List JsonValue)) →
           testFeeHistory (Except.ok ⟨some fh, none, t⟩) stage2
             = ⟨true, some false, some ParamFormat.hex, false⟩)
      ∧ (∀ fees, fh.baseFeePerGas = some fees → 0 < fees.length →
           (sumFeeGwei fees).isSome = true → rewardParseOk fh.reward = true →
           testFeeHistory (Except.ok ⟨some fh, none, t⟩) stage2
             = ⟨true, some true, some ParamFormat.hex, false⟩) := by
  intro fh t stage2
  have hred : testFeeHistory (Except.ok ⟨some fh, none, t⟩) stage2
      = parseFeeSuccess ⟨some fh, none, t⟩ (some ParamFormat.hex) false := rfl
  refine ⟨?_, ?_, ?_⟩
  · rw [hred, parseFeeSuccess_eip1559]
    cases hbf : fh.baseFeePerGas with
    | none => simp [hbf]
    | some fees =>
      by_cases hl : 0 < fees.length
      · simp [hbf, hl]
      · simp [hbf, hl]
  · intro hcase
    rw [hred]
    rcases hcase with hbf | hbf
    · simp [parseFeeSuccess, hbf]
    · simp [parseFeeSuccess, hbf]
  · intro fees hbf hl hsum hrw
    have hi : fees.length - 1 < fees.length := Nat.sub_lt hl one_pos
    have hlast : (normalizeFeeValue (fees.getD (fees.length - 1)
        (JsonValue.num 0))).isSome = true :=
      normalizeFeeValue_isSome_of_sum fees hsum _ (getD_last_mem fees hl _)
    obtain ⟨x, hx⟩ := Option.isSome_iff_exists.mp hlast
    have hx2 : normalizeFeeValue fees[fees.length - 1] = some x := by
      rw [List.getD_eq_getElem?_getD, List.getElem?_eq_getElem hi] at hx
      simpa using hx
    obtain ⟨s, hs⟩ := Option.isSome_iff_exists.mp hsum
    have havg : avgBaseFeeGwei fees = some (s / (fees.length : ℚ)) := by
      rw [avgBaseFeeGwei, hs]
      rfl
    rw [hred]
    cases hrd : fh.reward with
    | none => simp [parseFeeSuccess, hbf, hl, hx, hx2, havg, hrd]
    | some rws =>
      rw [hrd] at hrw
      by_cases hrl : 0 < rws.length
      · have hj : rws.length - 1 < rws.length := Nat.sub_lt hrl one_pos
        have hconv : rws.getD (rws.length - 1) [] = rws[rws.length - 1] := by
          rw [List.getD_eq_getElem?_getD, List.getElem?_eq_getElem hj]
          simp
        simp only [rewardParseOk] at hrw
        rw [hconv, if_pos hrl] at hrw
        by_cases hll : 0 < rws[rws.length - 1].length
        · rw [if_pos hll] at hrw
          rcases hv0 : normalizeRewardEntry rws[rws.length - 1][0]? with _ | a0
          · rw [hv0] at hrw
            simp at hrw
          · rcases hv1 : normalizeRewardEntry rws[rws.length - 1][1]? with _ | a1
            · rw [hv1] at hrw
              simp at hrw
            · rcases hv2 : normalizeRewardEntry rws[rws.length - 1][2]? with _ | a2
              · rw [hv2] at hrw
                simp at hrw
              · have hv0g : normalizeRewardEntry (some rws[rws.length - 1][0])
                    = some a0 := by
                  rw [List.getElem?_eq_getElem hll] at hv0
                  exact hv0
                simp [parseFeeSuccess, hbf, hl, hx, hx2, havg, hrd, hrl, hll, hconv,
                  hv0, hv0g, hv1, hv2]
        · simp [parseFeeSuccess, hbf, hl, hx, hx2, havg, hrd, hrl, hll, hconv]
      · simp [parseFeeSuccess, hbf, hl, hx, hx2, havg, hrd, hrl]

/-- C6 witness: the amended characterization on a concrete well-formed
mixed-encoding result with a three-entry reward list. -/
theorem C6_eip1559_classification_witness :
    testFeeHistory
        (Except.ok ⟨some ⟨some [JsonValue.str "0x3b9aca00", JsonValue.num 1000000000],
            [], "0x1", some [[JsonValue.num 1, JsonValue.num 2, JsonValue.num 3]]⟩,
          none, 5⟩)
        (Except.error "unused")
      = ⟨true, some true, some ParamFormat.hex, false⟩ :=
  (C6_eip1559_classification _ 5 (Except.error "unused")).2.2 _ rfl (by decide)
    (by decide) (by decide)

/-- C10: a successful fee-history result with well-formed non-empty base fees
and a latest-block reward list of length 1 or 2 makes the percentile code
read past the end of the list; the conversion of the `undefined` access
throws and the probe fails even though the RPC call succeeded (and after
`eip1559` was already recorded as `true`). -/
theorem C10_short_reward_array_fails :
    ∀ (stage2 : Except String (RpcResp FeeHistoryResult))
      (fees entry : List JsonValue) (g : List ℚ) (ob : String) (t : Nat),
      0 < fees.length → (sumFeeGwei fees).isSome = true →
      0 < entry.length → entry.length < 3 →
      testFeeHistory
          (Except.ok ⟨some ⟨some fees, g, ob, some [entry]⟩, none, t⟩) stage2
        = ⟨false, some true, some ParamFormat.hex, false⟩ := by
  intro stage2 fees entry g ob t hl hsum he1 he3
  have hi : fees.length - 1 < fees.length := Nat.sub_lt hl one_pos
  have hlast : (normalizeFeeValue (fees.getD (fees.length - 1)
      (JsonValue.num 0))).isSome = true :=
    normalizeFeeValue_isSome_of_sum fees hsum _ (getD_last_mem fees hl _)
  obtain ⟨x, hx⟩ := Option.isSome_iff_exists.mp hlast
  have hx2 : normalizeFeeValue fees[fees.length - 1] = some x := by
    rw [List.getD_eq_getElem?_getD, List.getElem?_eq_getElem hi] at hx
    simpa using hx
  obtain ⟨s, hs⟩ := Option.isSome_iff_exists.mp hsum
  have havg : avgBaseFeeGwei fees = some (s / (fees.length : ℚ)) := by
    rw [avgBaseFeeGwei, hs]
    rfl
  have h2 : entry[2]? = none := List.getElem?_eq_none (by omega)
  have hn2 : normalizeRewardEntry entry[2]? = none := by
    rw [h2]
    rfl
  rcases h0 : normalizeRewardEntry entry[0]? with _ | a <;>
    rcases h1v : normalizeRewardEntry entry[1]? with _ | b <;>
      simp [testFeeHistory, parseFeeSuccess, hl, hx, hx2, havg, he1, h0, h1v, hn2]

/-- C10 witness: the failure at the concrete input `baseFeePerGas =
["0x3b9aca00"]`, `reward = [[1]]` (one entry, fewer than 3). -/
theorem C10_short_reward_array_fails_witness :
    testFeeHistory
        (Except.ok ⟨some ⟨some [JsonValue.str "0x3b9aca00"], [], "0x1",
            some [[JsonValue.num 1]]⟩, none, 2⟩)
        (Except.error "unused")
      = ⟨false, some true, some ParamFormat.hex, false⟩ :=
  C10_short_reward_array_fails (Except.error "unused") _ _ _ _ 2
    (by decide) (by decide) (by decide) (by decide)

/-- The gwei summation depends only on the normalized integer values of the
elements, not on their hex-string or native-number encoding. -/
theorem sumFeeGwei_eq_of_map_eq :
    ∀ l₁ l₂ : List JsonValue,
      l₁.map normalizeFeeValue = l₂.map normalizeFeeValue →
      sumFeeGwei l₁ = sumFeeGwei l₂ := by
  intro l₁
  induction l₁ with
  | nil =>
    intro l₂ h
    cases l₂ with
    | nil => rfl
    | cons b bs => simp at h
  | cons a as ih =>
    intro l₂ h
    cases l₂ with
    | nil => simp at h
    | cons b bs =>
      simp only [List.map_cons, List.cons.injEq] at h
      have hf : feeToGwei a = feeToGwei b := by
        rw [feeToGwei, feeToGwei, h.1]
      rw [sumFeeGwei, sumFeeGwei, hf, ih bs h.2]

/-- C8: the computed average base fee depends only on the element-wise
normalized integers (so mixed hex/number encodings of the same values give
the same average), and on the quoted mixed-encoding array
`["0x3b9aca00", 1000000000]` it equals exactly 1 gwei. -/
theorem C8_mixed_encoding_average :
    (∀ l₁ l₂ : List JsonValue,
       l₁.map normalizeFeeValue = l₂.map normalizeFeeValue →
       avgBaseFeeGwei l₁ = avgBaseFeeGwei l₂)
    ∧ avgBaseFeeGwei [JsonValue.str "0x3b9aca00", JsonValue.num 1000000000]
        = some 1 := by
  constructor
  · intro l₁ l₂ h
    have hlen : l₁.length = l₂.length := by
      simpa using congrArg List.length h
    rw [avgBaseFeeGwei, avgBaseFeeGwei, sumFeeGwei_eq_of_map_eq l₁ l₂ h, hlen]
  · have hstr : normalizeFeeValue (JsonValue.str "0x3b9aca00")
        = some 1000000000 := by decide
    have hnum : normalizeFeeValue (JsonValue.num 1000000000)
        = some 1000000000 := by decide
    have h1 : sumFeeGwei [JsonValue.str "0x3b9aca00", JsonValue.num 1000000000]
        = some (((1000000000 : ℤ) : ℚ) / 1000000000
            + (((1000000000 : ℤ) : ℚ) / 1000000000 + 0)) := by
      rw [sumFeeGwei, sumFeeGwei, sumFeeGwei, feeToGwei, feeToGwei, hstr, hnum]
      rfl
    rw [avgBaseFeeGwei, h1]
    simp only [Option.map_some']
    norm_num

/-- C8 witness: encoding-independence applied to the two one-element
encodings of 1 gwei. -/
theorem C8_mixed_encoding_average_witness :
    avgBaseFeeGwei [JsonValue.str "0x3b9aca00"]
      = avgBaseFeeGwei [JsonValue.num 1000000000] :=
  C8_mixed_encoding_average.1 _ _ (by decide)

/-- Closed form of the runner fold: the final counters and record extend the
initial ones by the per-name outcomes, in order. -/
theorem runAllTests_foldl_spec (behaviors : String → Except String Bool) :
    ∀ (names : List String) (res : TestResult),
      names.foldl (fun r n => recordTest r n (behaviors n)) res
        = ⟨res.passed + names.countP (fun n => outcomePassed (behaviors n)),
           res.failed + names.countP (fun n => !outcomePassed (behaviors n)),
           res.tests ++ names.map (fun n => (n, outcomePassed (behaviors n)))⟩ := by
  intro names
  induction names with
  | nil =>
    intro res
    simp
  | cons a rest ih =>
    intro res
    rw [List.foldl_cons, ih]
    rcases hb : behaviors a with msg | b
    · simp [recordTest, hb, outcomePassed, List.countP_cons, TestResult.mk.injEq]
      omega
    · cases b
      · simp [recordTest, hb, outcomePassed, List.countP_cons, TestResult.mk.injEq]
        omega
      · simp [recordTest, hb, outcomePassed, List.countP_cons, TestResult.mk.injEq]
        omega

/-- A boolean predicate and its negation count every element exactly once. -/
theorem countP_add_countP_not (p : String → Bool) :
    ∀ names : List String,
      names.countP p + names.countP (fun n => !p n) = names.length := by
  intro names
  induction names with
  | nil => rfl
  | cons a rest ih =>
    by_cases h : p a = true <;> simp [List.countP_cons, h] <;> omega

/-- The exit decision is zero exactly on a zero failure count. -/
theorem mainExitCode_eq_zero_iff (r : TestResult) :
    mainExitCode r = 0 ↔ r.failed = 0 := by
  rw [mainExitCode]
  split <;> omega

/-- The exit decision is one exactly on a positive failure count. -/
theorem mainExitCode_eq_one_iff (r : TestResult) :
    mainExitCode r = 1 ↔ 0 < r.failed := by
  rw [mainExitCode]
  split <;> omega

/-- C5: the runner records the five probes in the fixed order (so each
outcome exactly once, and it never aborts before the last probe); a probe
that throws is recorded as a failed outcome; and the recorded passed and
failed counts always sum to 5. -/
theorem C5_suite_runner_isolation :
    ∀ behaviors : String → Except String Bool,
      (runAllTests behaviors).tests.map Prod.fst = testNames
      ∧ (runAllTests behaviors).passed + (runAllTests behaviors).failed = 5
      ∧ (∀ name msg, name ∈ testNames → behaviors name = Except.error msg →
          (name, false) ∈ (runAllTests behaviors).tests)
      ∧ (∀ name, name ∈ testNames →
          (name, outcomePassed (behaviors name)) ∈ (runAllTests behaviors).tests) := by
  intro behaviors
  have h : runAllTests behaviors
      = ⟨0 + testNames.countP (fun n => outcomePassed (behaviors n)),
         0 + testNames.countP (fun n => !outcomePassed (behaviors n)),
         [] ++ testNames.map (fun n => (n, outcomePassed (behaviors n)))⟩ :=
    runAllTests_foldl_spec behaviors testNames ⟨0, 0, []⟩
  refine ⟨?_, ?_, ?_, ?_⟩
  · rw [h]
    simp [Function.comp_def]
  · rw [h]
    have hc := countP_add_countP_not (fun n => outcomePassed (behaviors n)) testNames
    simp only [testNames, List.length_cons, List.length_nil] at hc
    simpa using hc
  · intro name msg hmem hb
    rw [h]
    simp only [List.nil_append]
    exact List.mem_map.mpr ⟨name, hmem, by rw [hb]; rfl⟩
  · intro name hmem
    rw [h]
    simp only [List.nil_append]
    exact List.mem_map.mpr ⟨name, hmem, rfl⟩

/-- C5 witness: a crashing balance probe is recorded as a failed outcome and
the counters still sum to 5. -/
theorem C5_suite_runner_isolation_witness :
    ("eth_getBalance", false)
        ∈ (runAllTests fun n =>
            if n = "eth_getBalance" then Except.error "socket hang up"
            else Except.ok true).tests
    ∧ (runAllTests fun n =>
          if n = "eth_getBalance" then Except.error "socket hang up"
          else Except.ok true).passed
        + (runAllTests fun n =>
            if n = "eth_getBalance" then Except.error "socket hang up"
            else Except.ok true).failed = 5 := by
  constructor
  · exact (C5_suite_runner_isolation _).2.2.1 "eth_getBalance" "socket hang up"
      (by decide) rfl
  · exact (C5_suite_runner_isolation _).2.1

/-- C7: the exit code is 0 exactly when every recorded probe outcome is a
pass and 1 exactly when some recorded outcome is a failure; in the quoted
scenario ("method not found" from `eth_feeHistory`, all other probes
passing) the fee-history probe passes with `eip1559 = false` and the exit
code is 0. -/
theorem C7_exit_code :
    (∀ behaviors : String → Except String Bool,
       (mainExitCode (runAllTests behaviors) = 0 ↔
          ∀ p ∈ (runAllTests behaviors).tests, p.2 = true)
       ∧ (mainExitCode (runAllTests behaviors) = 1 ↔
          ∃ p ∈ (runAllTests behaviors).tests, p.2 = false))
    ∧ (testFeeHistory feeNotFoundResp feeNotFoundResp).passed = true
    ∧ (testFeeHistory feeNotFoundResp feeNotFoundResp).eip1559 = some false
    ∧ mainExitCode (runAllTests notFoundScenario) = 0 := by
  refine ⟨fun behaviors => ?_, by decide, by decide, by decide⟩
  have h : runAllTests behaviors
      = ⟨0 + testNames.countP (fun n => outcomePassed (behaviors n)),
         0 + testNames.countP (fun n => !outcomePassed (behaviors n)),
         [] ++ testNames.map (fun n => (n, outcomePassed (behaviors n)))⟩ :=
    runAllTests_foldl_spec behaviors testNames ⟨0, 0, []⟩
  rw [h]
  constructor
  · rw [mainExitCode_eq_zero_iff]
    simp only [Nat.zero_add, List.nil_append]
    rw [List.countP_eq_zero]
    simp
  · rw [mainExitCode_eq_one_iff]
    simp only [Nat.zero_add, List.nil_append]
    rw [List.countP_pos_iff]
    simp

end RpcTester
